import Mathlib

/-!
Verification of the rune-python-runtime metadata/key/reference/condition engine.

The definitions below are a shallow embedding of `src/rune/runtime/metadata.py`,
`src/rune/runtime/base_data_class.py` and `src/rune/runtime/conditions.py`.
Python dicts are modelled as association lists (`List (String × α)`) that keep
insertion order, Python `None` as `Option.none`, and raised exceptions as
`Except RuneErr`.
-/

namespace RuneSpec

/-- Errors raised by the runtime: `ValueError`, `TypeError`, `KeyError` and
pydantic's `ValidationError`, each carrying the message text. -/
inductive RuneErr where
  | valueError (msg : String)
  | typeError (msg : String)
  | keyError (msg : String)
  | validationError (msg : String)
  deriving DecidableEq

/-- `dict.get(k)`: first value stored under `k`, if any. -/
def alookup {α : Type} (m : List (String × α)) (k : String) : Option α :=
  match m with
  | [] => none
  | kv :: t => if kv.1 = k then some kv.2 else alookup t k

/-- `dict[k] = v`: update the value in place when the key exists, append otherwise. -/
def dictSet {α : Type} (m : List (String × α)) (k : String) (v : α) : List (String × α) :=
  match m with
  | [] => [(k, v)]
  | kv :: t => if kv.1 = k then (k, v) :: t else kv :: dictSet t k v

/-- `dict.pop(k, None)`: drop every binding of `k` (a dict holds at most one). -/
def dictPop {α : Type} (m : List (String × α)) (k : String) : List (String × α) :=
  m.filter (fun kv => kv.1 ≠ k)

/-- Split a character list on a separator, Python `str.split` style: `""` gives
`[""]` and separators are never collapsed. -/
def splitChars (sep : Char) : List Char → List (List Char)
  | [] => [[]]
  | c :: t =>
    let r := splitChars sep t
    if c = sep then [] :: r
    else match r with
      | [] => [[c]]
      | h :: t' => (c :: h) :: t'

/-- Python `s.split(sep)` for a one-character separator. -/
def pySplit (s : String) (sep : Char) : List String := (splitChars sep s.data).map String.mk

/-- Python `s.startswith(pre)`. -/
def pyStartsWith (s pre : String) : Bool := pre.data.isPrefixOf s.data

/-- Python `s.replace(a, b)` for one-character arguments. -/
def pyReplaceChar (s : String) (a b : Char) : String :=
  String.mk (s.data.map (fun c => if c = a then b else c))

/-- `KeyType` from `metadata.py`: the supported key/reference kinds. -/
inductive KeyType where
  | internal
  | external
  | scoped
  deriving DecidableEq

/-- `KeyType.value`: the enum's string value. -/
def KeyType.value : KeyType → String
  | .internal => "internal"
  | .external => "external"
  | .scoped => "scoped"

/-- `KeyType.key_tag`: the key tag as used internally. -/
def KeyType.key_tag (kt : KeyType) : String :=
  if kt = .internal then "key" else "key_" ++ kt.value

/-- `KeyType.rune_key_tag`: the key tag as represented in rune. -/
def KeyType.rune_key_tag (kt : KeyType) : String :=
  if kt = .internal then "@key" else "@key:" ++ kt.value

/-- `KeyType.ref_tag`: the ref tag as used internally. -/
def KeyType.ref_tag (kt : KeyType) : String :=
  if kt = .internal then "ref" else "ref_" ++ kt.value

/-- `KeyType.rune_ref_tag`: the ref tag as represented in rune. -/
def KeyType.rune_ref_tag (kt : KeyType) : String :=
  if kt = .internal then "@ref" else "@ref:" ++ kt.value

/-- `KeyType.from_rune`: split on `:`, take the last part when there are several,
default to `internal`; `KeyType(...)` raises `ValueError` on an unknown value,
modelled by `none`. -/
def KeyType.from_rune (s : String) : Option KeyType :=
  let parts := pySplit s ':'
  let v := if parts.length > 1 then parts.getLastD "" else "internal"
  if v = "internal" then some .internal
  else if v = "external" then some .external
  else if v = "scoped" then some .scoped
  else none

/-- `_py_to_ser_key`: keys already starting with `@` pass through, otherwise
prefix `@` and turn `_` into `:`. -/
def py_to_ser_key (k : String) : String :=
  if pyStartsWith k "@" then k else "@" ++ (pyReplaceChar k '_' ':')

/-! ## Metadata store (`BaseMetaDataMixin` meta container) -/

/-- The `__rune_metadata` container: tag → value, where a stored Python `None`
is `Option.none`. -/
abbrev MetaStore (α : Type) := List (String × Option α)

/-- The tag names currently present in the store. -/
def metaKeys {α : Type} (m : MetaStore α) : List String := m.map Prod.fst

/-- `init_meta`: if the already-present tags are not a subset of the allowed
tags, raise; otherwise seed each missing allowed tag with `None`. -/
def init_meta {α : Type} (m : MetaStore α) (allowed : List String) :
    Except RuneErr (MetaStore α) :=
  if h : ∀ k ∈ metaKeys m, k ∈ allowed then
    .ok (m ++ (allowed.filter (fun k => k ∉ metaKeys m)).map (fun k => (k, (none : Option α))))
  else
    .error (.valueError "Allowed meta differs from the currently existing meta slots")

/-- `_check_props_allowed`: empty props pass; otherwise every prop key must be
one of the store's current slots. -/
def check_props_allowed {α : Type} (m : MetaStore α) (props : List String) :
    Except RuneErr Unit :=
  if props = [] then .ok ()
  else if h : ∀ k ∈ props, k ∈ metaKeys m then .ok ()
  else .error (.valueError "Not allowed metadata provided")

/-- `set_meta`: serialise the prop names via `_py_to_ser_key`, optionally check
them against the current slots, then merge them into the store. -/
def set_meta {α : Type} (m : MetaStore α) (checkAllowed : Bool)
    (props : List (String × Option α)) : Except RuneErr (MetaStore α) :=
  let props := props.map (fun kv => (py_to_ser_key kv.1, kv.2))
  match (if checkAllowed then check_props_allowed m (props.map Prod.fst) else .ok ()) with
  | .error e => .error e
  | .ok _ => .ok (props.foldl (fun acc kv => dictSet acc kv.1 kv.2) m)

/-- `get_meta`: `container.get(_py_to_ser_key(name))`, with a stored `None`
indistinguishable from an absent tag (both give Python `None`). -/
def get_meta {α : Type} (m : MetaStore α) (name : String) : Option α :=
  (alookup m (py_to_ser_key name)).join

/-! ## Metadata checks toggle (`BaseMetaDataMixin.__meta_check_disabled`) -/

/-- `disable_meta_checks`: sets the class-level `__meta_check_disabled` flag. -/
def disable_meta_checks (_flag : Bool) : Bool := true

/-- `enable_meta_checks`: clears the class-level `__meta_check_disabled` flag. -/
def enable_meta_checks (_flag : Bool) : Bool := false

/-- `meta_checks_enabled`: `not __meta_check_disabled`. -/
def meta_checks_enabled (flag : Bool) : Bool := !flag

/-- `validate_model`'s effect on the flag: `try: disable_meta_checks(); body
finally: enable_meta_checks()`. -/
def validate_model_flag (body : Bool → Bool) (flag : Bool) : Bool :=
  enable_meta_checks (body (disable_meta_checks flag))

/-! ## Condition registry (`conditions.py`) -/

/-- `get_conditions(cls, base_class)`: take the classes of `cls.__mro__` that
come strictly before `base_class`, walk them in reversed (base-to-derived)
order, and append each class's registered conditions, with the condition name
qualified by the class's fully qualified name. The registry is modelled as a
function from a fully qualified class name to its registered conditions. -/
def get_conditions {α : Type} (registry : String → List (String × α))
    (mro : List String) (base : String) : List (String × α) :=
  let index := mro.indexOf base
  ((mro.take index).reverse).foldl
    (fun res c => res ++ (registry c).map (fun kv => (c ++ "." ++ kv.1, kv.2))) []

/-! ## Key registries and the parent chain (`BaseMetaDataMixin`)

A node is modelled together with its ancestor chain: a list whose head is the
node itself and whose last element is the root (the only node without a
parent).  `get_rune_parent()` of the head is the second element.  The
`__rune_object_maps` dict is modelled as a function from `KeyType` to an
association list; a missing per-kind sub-dict and an empty one are
indistinguishable to every operation (both are falsy), so both are `[]`. -/

/-- Registered object maps of one node: kind → (key → target object id). -/
abbrev ObjMaps := KeyType → List (String × Nat)

/-- The empty `__rune_object_maps`. -/
def emptyMaps : ObjMaps := fun _ => []

/-- A constructed object: identity, whether `is_scope_instance()` holds, and
its local `__rune_object_maps`. -/
structure PyNode where
  id : Nat
  isScope : Bool
  maps : ObjMaps

/-- `_get_object_map`, returning the node that owns the targeted registry.
With no parent, the node's own maps; otherwise the node's local map of that
kind when it is present and non-empty (truthy), else the parent's result. -/
def get_object_map_owner : List PyNode → KeyType → Option PyNode
  | [], _ => none
  | [n], _ => some n
  | n :: p :: rest, kt =>
      if n.maps kt ≠ [] then some n else get_object_map_owner (p :: rest) kt

/-- The claim's wording for the Scoped kind, for comparison with
`get_object_map_owner`: the nearest ancestor (including the node itself)
flagged as a scope boundary. -/
def claimed_scoped_target (chain : List PyNode) : Option PyNode :=
  chain.find? (fun m => m.isScope)

/-- One step of `_update_object_maps`'s merge loop: raise on intersecting
keys, otherwise `local_map |= new_map`. -/
def merge_map (locl nw : List (String × Nat)) : Except RuneErr (List (String × Nat)) :=
  if (locl.map Prod.fst).inter (nw.map Prod.fst) = [] then .ok (locl ++ nw)
  else .error (.valueError "Duplicated keys detected in updating the object map")

/-- The whole merge loop of `_update_object_maps` at one node, over the three
kinds (a kind absent from `new_maps` contributes `[]`, a no-op merge). -/
def merge_maps_into (n : PyNode) (nw : ObjMaps) : Except RuneErr PyNode :=
  match merge_map (n.maps .internal) (nw .internal),
        merge_map (n.maps .external) (nw .external),
        merge_map (n.maps .scoped) (nw .scoped) with
  | .ok i, .ok e, .ok s =>
      .ok { n with maps := fun kt => match kt with
            | .internal => i
            | .external => e
            | .scoped => s }
  | .error er, _, _ => .error er
  | _, .error er, _ => .error er
  | _, _, .error er => .error er

/-- `_extract_scoped_map`: pop the Scoped map when the node is a scope
instance, leaving the rest. -/
def extract_scoped_map (n : PyNode) (m : ObjMaps) : List (String × Nat) × ObjMaps :=
  if n.isScope then (m .scoped, fun kt => if kt = .scoped then [] else m kt)
  else ([], m)

/-- `_update_object_maps` along the chain: with a parent, extract the scoped
map, push the rest to the parent, and retain the scoped map locally when it is
truthy; without a parent, merge everything locally. -/
def update_object_maps : List PyNode → ObjMaps → Except RuneErr (List PyNode)
  | [], _ => .ok []
  | [n], m =>
      match merge_maps_into n m with
      | .ok n' => .ok [n']
      | .error e => .error e
  | n :: p :: rest, m =>
      let sm := extract_scoped_map n m
      match update_object_maps (p :: rest) sm.2 with
      | .error e => .error e
      | .ok rest' =>
          if sm.1 = [] then .ok (n :: rest')
          else
            match merge_maps_into n (fun kt => if kt = .scoped then sm.1 else []) with
            | .ok n' => .ok (n' :: rest')
            | .error e => .error e

/-- `set_rune_parent`: record the parent (the head of `ancestors` becomes the
node's parent), pop the node's own `__rune_object_maps` and merge them upward
via `_update_object_maps`.  Merging an all-empty popped dict is a no-op, so
the truthiness guard on the popped dict is dropped. -/
def set_rune_parent (child : PyNode) (ancestors : List PyNode) :
    Except RuneErr (List PyNode) :=
  update_object_maps ({ child with maps := emptyMaps } :: ancestors) child.maps

/-! ## `set_external_key` (claim C5)

The node is modelled in its parentless state, where `_get_object_map` returns
the node's own per-kind maps; registration is a plain dict assignment and
therefore total. -/

/-- A node as seen by `set_external_key`: its meta container and the visible
registry (its own, it has no parent). -/
structure KeyNode where
  id : Nat
  meta : MetaStore String
  reg : ObjMaps

/-- `self._get_object_map(key_type)[key] = self`: a plain dict assignment;
it cannot raise. -/
def regAssign (reg : ObjMaps) (kt : KeyType) (key : String) (oid : Nat) :
    Except RuneErr ObjMaps :=
  .ok (fun kt' => if kt' = kt then dictSet (reg kt') key oid else reg kt')

/-- Python truthiness of the value returned by `get_meta`. -/
def truthyS : Option String → Bool
  | none => false
  | some s => s != ""

/-- `set_external_key`: raise when a truthy key of that kind exists and
differs; return unchanged when it is identical; otherwise store the key via
`set_meta` (which checks the tag against the current slots) and register it,
rolling the stored key back if the registration raises. -/
def set_external_key (n : KeyNode) (key : String) (kt : KeyType) :
    Except RuneErr KeyNode :=
  let aux := get_meta n.meta kt.key_tag
  if truthyS aux ∧ aux ≠ some key then
    .error (.valueError "This object already has an external key")
  else if aux = some key then .ok n
  else
    match set_meta n.meta true [(kt.key_tag, some key)] with
    | .error e => .error e
    | .ok m1 =>
        match regAssign n.reg kt key n.id with
        | .ok r => .ok { n with meta := m1, reg := r }
        | .error e =>
            match set_meta m1 true [(kt.key_tag, none)] with
            | _ => .error e

/-! ## `rune_serialize` (claim C9) -/

/-- The state `rune_serialize` touches: the transient `__rune_root_metadata`
entry of `__dict__` and, opaquely, everything else (`rest`). -/
structure SerNode (ρ : Type) where
  rootMeta : Option (List (String × String))
  rest : ρ

/-- Python `a | b` on dicts: `a`'s key order with `b`'s values winning, then
`b`'s new keys. -/
def dictUnion {α : Type} (a b : List (String × α)) : List (String × α) :=
  (a.map (fun kv => match alookup b kv.1 with
    | some v => (kv.1, v)
    | none => kv))
    ++ b.filter (fun kv => (alookup a kv.1).isNone)

/-- `rune_serialize`: validate, `setdefault` the root container, store
`@type`/`@model`/`@version` in it, dump (with `_resolve_refs` merging the root
container into the root's output), and pop the container in the `finally`
block.  `validate_model`, the structural dump, and the class-derived
type/model/version strings are external inputs.  The `finally` pop has no
default, so it raises `KeyError` when validation failed before the container
was created. -/
def rune_serialize {ρ : Type} (validate : ρ → Except RuneErr Unit)
    (dump : ρ → List (String × String)) (typeName modelName version : String)
    (st : SerNode ρ) : Except RuneErr (List (String × String)) × SerNode ρ :=
  match validate st.rest with
  | .error e =>
      match st.rootMeta with
      | none => (.error (.keyError "__rune_root_metadata"), st)
      | some _ => (.error e, { st with rootMeta := none })
  | .ok _ =>
      let rm := st.rootMeta.getD []
      let rm := dictSet rm "@type" typeName
      let rm := dictSet rm "@model" modelName
      let rm := dictSet rm "@version" version
      (.ok (dictUnion rm (dump st.rest)), { st with rootMeta := none })

/-! ## `BaseDataClass.__setattr__` and `bind_property_to` (claim C10)

Field values of a generic node.  A `BaseMetaDataMixin` instance is modelled by
its identity, its runtime class name and the keys of its meta container (what
`_check_props_allowed` consults); `_EnumWrapper` carries its wrapped value and
its own meta keys. -/

/-- A referencable object: identity, runtime class, meta container slots. -/
structure TargetObj where
  id : Nat
  cls : String
  metaKeys : List String
  deriving DecidableEq

/-- A value stored in a field of `__dict__`. -/
inductive PVal where
  | base (s : String)
  | enumMember (s : String)
  | node (o : TargetObj)
  | unresolved (kt : KeyType) (key : String)
  | enumW (v : Option String) (slots : List String)
  deriving DecidableEq

/-- A `Reference` instance as consumed by `bind_property_to`: the target
object, its key, and the key kind. -/
structure RefVal where
  target_key : String
  key_type : KeyType
  target : TargetObj
  deriving DecidableEq

/-- A declared field type after `_get_basic_type`: either a forward-declared
string annotation (`isinstance(allowed_type, str)` skips the check) or a
concrete class. -/
inductive FieldTy where
  | strTy (s : String)
  | clsTy (c : String)
  deriving DecidableEq

/-- A `BaseDataClass` instance: `__dict__` fields, the `__rune_references`
container, the class's `_KEY_REF_CONSTRAINTS` and its declared field types. -/
structure CObj where
  fields : List (String × PVal)
  refsC : List (String × (String × KeyType))
  cons : List (String × List String)
  tys : List (String × FieldTy)
  deriving DecidableEq

/-- `isinstance(x, c)` over class names, with `subRel` listing the proper
(sub, super) pairs of the modelled class hierarchy. -/
def isinstance_of (subRel : List (String × String)) (cls sup : String) : Bool :=
  cls = sup || subRel.contains (cls, sup)

/-- The third precondition block of `bind_property_to`: when the property is
not yet a reference, the current value must be a `BaseMetaDataMixin`, an
`UnresolvedReference` or a `Reference`, and a `BaseMetaDataMixin` current
value must itself allow the reference kind among its meta slots. -/
def aliasable_check (st : CObj) (nm : String) (r : RefVal) : Except RuneErr Unit :=
  if (alookup st.refsC nm).isSome then .ok ()
  else
    match alookup st.fields nm with
    | none => .error (.keyError "attribute not found")
    | some old =>
        match old with
        | .base _ => .error (.valueError "property cant be a reference")
        | .enumMember _ => .error (.valueError "property cant be a reference")
        | .unresolved _ _ => .ok ()
        | .node o =>
            if r.key_type.rune_ref_tag ∈ o.metaKeys then .ok ()
            else .error (.valueError "Not allowed metadata provided")
        | .enumW _ slots =>
            if r.key_type.rune_ref_tag ∈ slots then .ok ()
            else .error (.valueError "Not allowed metadata provided")

/-- `bind_property_to`: check the reference kind against
`_KEY_REF_CONSTRAINTS`, check the target's type against the declared field
type, check aliasability, then store the target in `__dict__` and record the
binding in `__rune_references`. -/
def bind_property_to (subRel : List (String × String)) (st : CObj) (nm : String)
    (r : RefVal) : Except RuneErr CObj :=
  if r.key_type.rune_ref_tag ∉ (alookup st.cons nm).getD [] then
    .error (.valueError "Ref of this type not allowed for the property")
  else
    match alookup st.tys nm with
    | none => .error (.typeError "isinstance with a None annotation")
    | some (.clsTy c) =>
        if isinstance_of subRel r.target.cls c then
          match aliasable_check st nm r with
          | .error e => .error e
          | .ok _ =>
              .ok { st with
                    fields := dictSet st.fields nm (.node r.target),
                    refsC := dictSet st.refsC nm (r.target_key, r.key_type) }
        else .error (.valueError "Cant set reference: incompatible types")
    | some (.strTy _) =>
        match aliasable_check st nm r with
        | .error e => .error e
        | .ok _ =>
            .ok { st with
                  fields := dictSet st.fields nm (.node r.target),
                  refsC := dictSet st.refsC nm (r.target_key, r.key_type) }

/-- What `__setattr__` receives: either a `Reference` instance or any other
value. -/
inductive AssignVal where
  | ref (r : RefVal)
  | plain (p : PVal)
  deriving DecidableEq

/-- `_EnumWrapper(value)`: raises unless the value is an `Enum` member. -/
def wrap_enum (p : PVal) : Except RuneErr PVal :=
  match p with
  | .enumMember s => .ok (.enumW (some s) [])
  | _ => .error (.valueError "enum-instance must be an instance of an Enum")

/-- The first half of `__setattr__`'s non-`Reference` branch: when the field
is recorded in `__rune_references`, pop the record and reset a wrapped-enum
current value to a fresh empty `_EnumWrapper`. -/
def setattr_popref (st : CObj) (nm : String) : CObj :=
  if (alookup st.refsC nm).isSome then
    { st with
      refsC := dictPop st.refsC nm,
      fields :=
        match alookup st.fields nm with
        | some (PVal.enumW _ _) => dictSet st.fields nm (.enumW none [])
        | _ => st.fields }
  else st

/-- `BaseDataClass.__setattr__`: a `Reference` delegates to
`bind_property_to`; otherwise pop any `__rune_references` entry for the field
(resetting a wrapped-enum value to a fresh empty wrapper), wrap the new value
when the current value is an `_EnumWrapper`, and store the value.  The
unguarded `self.__dict__[name]` access raises `KeyError` for an unknown
field. -/
def rune_setattr (subRel : List (String × String)) (st : CObj) (nm : String)
    (v : AssignVal) : Except RuneErr CObj :=
  match v with
  | .ref r => bind_property_to subRel st nm r
  | .plain p =>
      let st := setattr_popref st nm
      match alookup st.fields nm with
      | none => .error (.keyError "field not in __dict__")
      | some cur =>
          match
            (match cur, p with
             | .enumW _ _, .enumW _ _ => .ok p
             | .enumW _ _, _ => wrap_enum p
             | _, _ => .ok p : Except RuneErr PVal) with
          | .error e => .error e
          | .ok value => .ok { st with fields := dictSet st.fields nm value }

/-- A serialized field value: either the structural dump of the stored value
or the reference envelope `{ref_type: key}` substituted by `_resolve_refs` —
keyed, as in the source, by the `KeyType` enum member itself. -/
inductive DumpVal where
  | inline (p : PVal)
  | envelope (kt : KeyType) (key : String)
  deriving DecidableEq

/-- `_resolve_refs` (without the root container): dump every field, then
replace each field recorded in `__rune_references` with its reference
envelope. -/
def resolve_refs (st : CObj) : List (String × DumpVal) :=
  st.refsC.foldl
    (fun acc kv => dictSet acc kv.1 (DumpVal.envelope kv.2.2 kv.2.1))
    (st.fields.map (fun kv => (kv.1, DumpVal.inline kv.2)))

/-! ## The codec on a concrete generated model (claims C1 and C2)

The document model from the spec's concrete scenario (and the repo's metakey
round-trip test): `A {fieldA: string, [metadata key]}`, `NodeRef {typeA: A,
aReference: A [metadata reference]}`, `Root {nodeRef: NodeRef}`.  Pydantic's
structural building is mirrored field by field; the mixin logic
(`ComplexTypeMetaDataMixin.deserialize`, `_create_unresolved_ref`,
`_register_keys`, `resolve_references`) is translated from the source. -/

/-- A JSON value (objects and strings suffice for the modelled documents). -/
inductive JValue where
  | s (v : String)
  | obj (kvs : List (String × JValue))

/-- Python truthiness of a JSON value. -/
def truthyJ : JValue → Bool
  | .s v => v != ""
  | .obj kvs => !kvs.isEmpty

/-- `_create_unresolved_ref`: collect the `@ref`-prefixed tags; when there are
several, drop `@ref`, then `@ref:external`, and raise if more than one is
still left; build the `UnresolvedReference` from the remaining item.  A
non-string reference key is rejected (in Python it would fail the later
registry lookup machinery). -/
def create_unresolved_ref (metadata : List (String × JValue)) :
    Except RuneErr (Option (KeyType × String)) :=
  let refs := metadata.filter (fun kv => pyStartsWith kv.1 "@ref")
  if refs.isEmpty then .ok none
  else
    let refs := if refs.length ≠ 1 then refs.filter (fun kv => kv.1 ≠ "@ref") else refs
    let refs :=
      if refs.length ≠ 1 then refs.filter (fun kv => kv.1 ≠ "@ref:external") else refs
    match refs with
    | (k, v) :: rest =>
        if !rest.isEmpty then .error (.valueError "Multiple references found")
        else
          match KeyType.from_rune k, v with
          | some kt, .s key => .ok (some (kt, key))
          | none, _ => .error (.valueError "not a valid KeyType")
          | _, .obj _ => .error (.typeError "unhashable reference key")
    | [] => .error (.valueError "Multiple references found")

/-- `_register_keys`: every truthy `@key`-prefixed tag is registered, keyed by
its kind, into the visible map — the node's own standalone map here, since
nothing in the runtime has given the node a parent at this point. -/
def register_keys (metadata : List (String × JValue)) :
    Except RuneErr (List (KeyType × String)) :=
  (metadata.filter (fun kv => pyStartsWith kv.1 "@key" && truthyJ kv.2)).mapM
    (fun kv =>
      match KeyType.from_rune kv.1, kv.2 with
      | some kt, .s v => .ok (kt, v)
      | none, _ => .error (.valueError "not a valid KeyType")
      | _, .obj _ => .error (.typeError "unhashable key"))

/-- A deserialized `A` instance: its field, its meta container and its own
standalone key registrations. -/
structure AModel where
  fieldA : String
  meta : MetaStore JValue
  ownKeys : List (KeyType × String)

/-- What an `A`-typed field of `__dict__` can hold after validation: an `A`
instance, an `UnresolvedReference`, or `None`. -/
inductive AField where
  | a (m : AModel)
  | unresolved (kt : KeyType) (key : String)
  | absent

/-- `ComplexTypeMetaDataMixin.deserialize` at class `A` (fully qualified name
`metakey.A`, no subclasses): extract the `@`-tags, short-circuit to an
`UnresolvedReference`, otherwise strip the tags, resolve `@type`, build the
model (`fieldA` is a required string), attach and init the meta container, and
register the `@key` tags.  Metadata checks are enabled (the default). -/
def A_deserialize (allowed : List String) (j : JValue) : Except RuneErr AField :=
  match j with
  | .s _ => .error (.validationError "A expects an object")
  | .obj kvs =>
      let metadata := kvs.filter (fun kv => pyStartsWith kv.1 "@")
      match create_unresolved_ref metadata with
      | .error e => .error e
      | .ok (some (kt, key)) => .ok (.unresolved kt key)
      | .ok none =>
          let rest := kvs.filter (fun kv => !pyStartsWith kv.1 "@")
          let md := metadata.filter (fun kv => kv.1 ≠ "@type")
          let clsOk :=
            match alookup metadata "@type" with
            | none => true
            | some (.s t) => t = "metakey.A"
            | some (.obj _) => false
          if !clsOk then .error (.validationError "@type does not name A or a subclass")
          else
            match alookup rest "fieldA" with
            | some (.s s) =>
                match init_meta (md.map (fun kv => (kv.1, some kv.2))) allowed with
                | .error e => .error e
                | .ok cont =>
                    match register_keys md with
                    | .error e => .error e
                    | .ok ks => .ok (.a ⟨s, cont, ks⟩)
            | _ => .error (.validationError "fieldA is required and must be a string")

/-- A deserialized `NodeRef` instance.  `NodeRef` is a plain pydantic field of
`Root`, so it gets no meta container of its own; `__rune_references` starts
empty. -/
structure NodeRefModel where
  typeA : AField
  aReference : AField
  refsC : List (String × (String × KeyType))

/-- Structural validation of `NodeRef`: apply each annotated field's
validator; both fields are optional and default to `None`. -/
def NodeRef_deserialize (j : JValue) : Except RuneErr NodeRefModel :=
  match j with
  | .s _ => .error (.validationError "NodeRef expects an object")
  | .obj kvs =>
      match
        (match alookup kvs "typeA" with
         | none => .ok .absent
         | some jv => A_deserialize ["@key"] jv : Except RuneErr AField) with
      | .error e => .error e
      | .ok typeA =>
          match
            (match alookup kvs "aReference" with
             | none => .ok .absent
             | some jv => A_deserialize ["@key", "@ref"] jv :
               Except RuneErr AField) with
          | .error e => .error e
          | .ok aReference => .ok ⟨typeA, aReference, []⟩

/-- A deserialized `Root` instance. -/
structure RootModel where
  nodeRef : Option NodeRefModel

/-- Structural validation of `Root`. -/
def Root_deserialize (j : JValue) : Except RuneErr RootModel :=
  match j with
  | .s _ => .error (.validationError "Root expects an object")
  | .obj kvs =>
      match alookup kvs "nodeRef" with
      | none => .ok ⟨none⟩
      | some jv =>
          match NodeRef_deserialize jv with
          | .error e => .error e
          | .ok n => .ok ⟨some n⟩

/-- A resolved `Reference` to an `A` instance. -/
structure ARef where
  target_key : String
  key_type : KeyType
  target : AModel

/-- `UnresolvedReference.get_reference(self, parent)`, with the argument list
of the call made explicit: `resolve_references` invokes it as
`obj.get_reference()`, i.e. with `parentArg = none`, which in Python raises
`TypeError: get_reference() missing 1 required positional argument: 'parent'`.
With a parent supplied, `Reference.__init__` falls to
`parent.get_object_by_key(key, key_type)`; the parent `NodeRef` has neither
own registrations nor a rune parent (nothing in the runtime sets one), so the
lookup raises `KeyError`. -/
def uref_get_reference (kt : KeyType) (key : String)
    (parentArg : Option NodeRefModel) : Except RuneErr ARef :=
  match parentArg with
  | none =>
      .error (.typeError "get_reference missing 1 required positional argument: parent")
  | some _ =>
      match kt with
      | _ => .error (.keyError key)

/-- `resolve_references` on an `A` instance: its `__dict__` holds no
`BaseDataClass` and no `UnresolvedReference` values, so nothing happens. -/
def A_resolve_references (m : AModel) : Except RuneErr AModel := .ok m

/-- Write an `A`-typed field of `NodeRef` by name. -/
def NodeRef_setfield (st : NodeRefModel) (nm : String) (v : AField) : NodeRefModel :=
  if nm = "typeA" then { st with typeA := v }
  else if nm = "aReference" then { st with aReference := v }
  else st

/-- Read an `A`-typed field of `NodeRef` by name (`getattr`). -/
def NodeRef_getfield (st : NodeRefModel) (nm : String) : Option AField :=
  if nm = "typeA" then some st.typeA
  else if nm = "aReference" then some st.aReference
  else none

/-- `bind_property_to` at class `NodeRef`, whose `_KEY_REF_CONSTRAINTS` is
`aReference ↦ @ref, @ref:external`; both fields are declared of type `A` and
the target is an `A` instance, so the isinstance check passes. -/
def NodeRef_bind_property_to (st : NodeRefModel) (nm : String) (r : ARef) :
    Except RuneErr NodeRefModel :=
  let allowedRefs := if nm = "aReference" then ["@ref", "@ref:external"] else []
  if r.key_type.rune_ref_tag ∉ allowedRefs then
    .error (.valueError "Ref of this type not allowed for the property")
  else
    match NodeRef_getfield st nm with
    | none => .error (.typeError "isinstance with a None annotation")
    | some old =>
        match
          (if (alookup st.refsC nm).isSome then .ok ()
           else
             match old with
             | .a m =>
                 if r.key_type.rune_ref_tag ∈ metaKeys m.meta then .ok ()
                 else .error (.valueError "Not allowed metadata provided")
             | .unresolved _ _ => .ok ()
             | .absent => .error (.valueError "property cant be a reference") :
            Except RuneErr Unit) with
        | .error e => .error e
        | .ok _ =>
            .ok { NodeRef_setfield st nm (.a r.target) with
                  refsC := dictSet st.refsC nm (r.target_key, r.key_type) }

/-- `resolve_references` on a `NodeRef`: walk `__dict__` in insertion order
(`typeA`, then `aReference`), recursing into `BaseDataClass` values and
collecting `(name, obj.get_reference())` — with no argument — for
`UnresolvedReference` values; then rebind each collected property. -/
def NodeRef_resolve_references (n : NodeRefModel) : Except RuneErr NodeRefModel :=
  match
    (match n.typeA with
     | .a m =>
         (match A_resolve_references m with
          | .error e => .error e
          | .ok _ => .ok [])
     | .unresolved kt key =>
         (match uref_get_reference kt key none with
          | .error e => .error e
          | .ok r => .ok [("typeA", r)])
     | .absent => .ok [] : Except RuneErr (List (String × ARef))) with
  | .error e => .error e
  | .ok refs1 =>
      match
        (match n.aReference with
         | .a m =>
             (match A_resolve_references m with
              | .error e => .error e
              | .ok _ => .ok refs1)
         | .unresolved kt key =>
             (match uref_get_reference kt key none with
              | .error e => .error e
              | .ok r => .ok (refs1 ++ [("aReference", r)]))
         | .absent => .ok refs1 : Except RuneErr (List (String × ARef))) with
      | .error e => .error e
      | .ok refs =>
          refs.foldlM (fun acc kv => NodeRef_bind_property_to acc kv.1 kv.2) n

/-- `resolve_references` on a `Root`: recurse into the `nodeRef` child; `Root`
itself holds no `UnresolvedReference`. -/
def Root_resolve_references (r : RootModel) : Except RuneErr RootModel :=
  match r.nodeRef with
  | none => .ok r
  | some n =>
      match NodeRef_resolve_references n with
      | .error e => .error e
      | .ok n' => .ok ⟨some n'⟩

/-- `validate_model` on a `Root` of this generated model: structural
validation is delegated to the external validator and no conditions are
registered for these types, so the call succeeds. -/
def Root_validate_model (_m : RootModel) : Except RuneErr Unit := .ok ()

/-- `BaseDataClass.rune_deserialize` for this model: pop the root provenance
tags (`@version`, `@model`, `@type` — absent from the modelled documents, so
the class is the legacy default `Root`), run `model_validate`, then
`resolve_references`, then `validate_model`. -/
def rune_deserialize (j : JValue) : Except RuneErr RootModel :=
  match j with
  | .s _ => .error (.validationError "document must be an object")
  | .obj kvs =>
      let kvs := kvs.filter
        (fun kv => kv.1 ≠ "@version" && kv.1 ≠ "@model" && kv.1 ≠ "@type")
      match Root_deserialize (.obj kvs) with
      | .error e => .error e
      | .ok m =>
          match Root_resolve_references m with
          | .error e => .error e
          | .ok m' =>
              match Root_validate_model m' with
              | .error e => .error e
              | .ok _ => .ok m'

/-- The spec's concrete round-trip document: `typeA` carries `@key: k1` and
`aReference` references it. -/
def docRT : JValue :=
  .obj [("nodeRef", .obj
    [("typeA", .obj [("fieldA", .s "foo"), ("@key", .s "k1")]),
     ("aReference", .obj [("@ref", .s "k1")])])]

/-- The tree `model_validate` builds from `docRT`, before reference
resolution. -/
def treeRT : RootModel :=
  ⟨some ⟨.a ⟨"foo", [("@key", some (.s "k1"))], [(.internal, "k1")]⟩,
         .unresolved .internal "k1", []⟩⟩

/-! ## Concrete fixtures used by counterexamples and witnesses -/

/-- A leaf node with empty maps, child of `sNode`. -/
def cNode : PyNode := ⟨0, false, emptyMaps⟩

/-- A scope-boundary node with empty maps, child of `rNode`. -/
def sNode : PyNode := ⟨1, true, emptyMaps⟩

/-- A root node (no parent) with empty maps, not a scope boundary. -/
def rNode : PyNode := ⟨2, false, emptyMaps⟩

/-- A freshly built scope-boundary subtree root with standalone internal and
scoped registrations. -/
def c4child : PyNode :=
  ⟨10, true, fun kt => match kt with
    | .internal => [("i1", 10)]
    | .external => []
    | .scoped => [("s1", 10)]⟩

/-- A root holding one internal registration. -/
def c4root : PyNode :=
  ⟨11, false, fun kt => match kt with
    | .internal => [("r0", 11)]
    | .external => []
    | .scoped => []⟩

/-- A node with no initialized metadata slots at all. -/
def keyNode0 : KeyNode := ⟨7, [], emptyMaps⟩

/-- A node whose meta container has the external key tag seeded as absent. -/
def keyNodeW : KeyNode := ⟨5, [("@key:external", none)], emptyMaps⟩

/-- A condition registry where classes `m.B` and `m.D` both register a
condition named `n`. -/
def c7registry : String → List (String × Nat) :=
  fun c => if c = "m.B" then [("n", 1)] else if c = "m.D" then [("n", 2)] else []

/-- A target `A` instance whose meta slots allow `@ref`. -/
def c10target : TargetObj := ⟨1, "A", ["@ref"]⟩

/-- A node with one `A`-typed field `x` currently holding another `A`
instance, `@ref` allowed for `x`. -/
def c10obj : CObj :=
  ⟨[("x", .node ⟨2, "A", ["@ref"]⟩)], [], [("x", ["@ref"])], [("x", .clsTy "A")]⟩

/-- `c10obj` after `x` has been bound to `c10target` via a reference. -/
def c10objBound : CObj :=
  ⟨[("x", .node c10target)], [("x", ("k", .internal))], [("x", ["@ref"])],
   [("x", .clsTy "A")]⟩

/-! ## Association-list helper lemmas -/

theorem alookup_dictSet_self {α : Type} (m : List (String × α)) (k : String) (v : α) :
    alookup (dictSet m k v) k = some v := by
  induction m with
  | nil => simp [dictSet, alookup]
  | cons kv t ih =>
      by_cases hk : kv.1 = k
      · simp [dictSet, hk, alookup]
      · simp [dictSet, hk, alookup, ih]

theorem alookup_dictSet_ne {α : Type} (m : List (String × α)) (k k' : String) (v : α)
    (h : k' ≠ k) : alookup (dictSet m k v) k' = alookup m k' := by
  induction m with
  | nil => simp [dictSet, alookup, Ne.symm h]
  | cons kv t ih =>
      by_cases hk : kv.1 = k
      · simp [dictSet, alookup, hk, h, Ne.symm h]
      · by_cases hk' : kv.1 = k'
        · simp [dictSet, alookup, hk, hk', h, Ne.symm h]
        · simp [dictSet, alookup, hk, hk', ih]

theorem alookup_dictPop_self {α : Type} (m : List (String × α)) (k : String) :
    alookup (dictPop m k) k = none := by
  induction m with
  | nil => simp [dictPop, alookup]
  | cons kv t ih =>
      by_cases hk : kv.1 = k
      · simpa [dictPop, hk] using ih
      · simpa [dictPop, hk, alookup] using ih

theorem alookup_none_forall {α : Type} (m : List (String × α)) (k : String)
    (h : alookup m k = none) : ∀ kv ∈ m, kv.1 ≠ k := by
  induction m with
  | nil => simp
  | cons kv t ih =>
      intro x hx
      by_cases hk : kv.1 = k
      · simp [alookup, hk] at h
      · rcases List.mem_cons.mp hx with rfl | hx'
        · exact hk
        · exact ih (by simpa [alookup, hk] using h) x hx'

theorem alookup_foldl_dictSet {α β : Type} (l : List (String × β))
    (f : String × β → α) (acc : List (String × α)) (k : String)
    (h : ∀ kv ∈ l, kv.1 ≠ k) :
    alookup (l.foldl (fun acc kv => dictSet acc kv.1 (f kv)) acc) k = alookup acc k := by
  induction l generalizing acc with
  | nil => simp
  | cons kv t ih =>
      have hk : kv.1 ≠ k := h kv (List.mem_cons_self kv t)
      simp only [List.foldl_cons]
      rw [ih _ (fun x hx => h x (List.mem_cons_of_mem kv hx)),
        alookup_dictSet_ne _ _ _ _ (fun hh => hk hh.symm)]

theorem alookup_map_snd {α β : Type} (m : List (String × α)) (g : α → β) (k : String) :
    alookup (m.map (fun kv => (kv.1, g kv.2))) k = (alookup m k).map g := by
  induction m with
  | nil => simp [alookup]
  | cons kv t ih =>
      by_cases hk : kv.1 = k
      · simp [alookup, hk]
      · simp [alookup, hk, ih]

theorem alookup_append_left {α : Type} (m1 m2 : List (String × α)) (k : String) (v : α)
    (h : alookup m1 k = some v) : alookup (m1 ++ m2) k = some v := by
  induction m1 with
  | nil => simp [alookup] at h
  | cons kv t ih =>
      by_cases hk : kv.1 = k
      · simp_all [alookup]
      · simp_all [alookup]

theorem alookup_append_right {α : Type} (m1 m2 : List (String × α)) (k : String)
    (h : alookup m1 k = none) : alookup (m1 ++ m2) k = alookup m2 k := by
  induction m1 with
  | nil => simp
  | cons kv t ih =>
      by_cases hk : kv.1 = k
      · simp [alookup, hk] at h
      · simp_all [alookup]

theorem alookup_eq_none_of_not_mem {α : Type} (m : List (String × α)) (k : String)
    (h : k ∉ m.map Prod.fst) : alookup m k = none := by
  induction m with
  | nil => simp [alookup]
  | cons kv t ih =>
      simp only [List.map_cons, List.mem_cons] at h
      push_neg at h
      rw [alookup, if_neg (Ne.symm h.1), ih h.2]

theorem alookup_map_const_none {α : Type} (l : List String) (k : String) (h : k ∈ l) :
    alookup (l.map (fun x => (x, (none : Option α)))) k = some none := by
  induction l with
  | nil => simp at h
  | cons x t ih =>
      by_cases hk : x = k
      · simp [alookup, hk]
      · rcases List.mem_cons.mp h with rfl | h'
        · exact absurd rfl hk
        · simp [alookup, hk, ih h']

theorem foldl_append_eq_flatMap {β γ : Type} (l : List β) (f : β → List γ) (acc : List γ) :
    l.foldl (fun r c => r ++ f c) acc = acc ++ l.flatMap f := by
  induction l generalizing acc with
  | nil => simp
  | cons c t ih => simp [ih, List.append_assoc]

/-! ## Claim theorems -/

/-- Claim C6: `validate_model` suspends metadata allow-list enforcement for
the duration of the call, and because the toggle is one global boolean that
the `finally` block sets back to the fixed enabled state, a nested
`validate_model` re-enables enforcement on its exit even though the outer call
is still mid-validation. -/
theorem C6_toggle_not_reentrant (flag : Bool) (inner : Bool → Bool) :
    meta_checks_enabled (disable_meta_checks flag) = false
    ∧ meta_checks_enabled (validate_model_flag inner flag) = true
    ∧ meta_checks_enabled (validate_model_flag inner (disable_meta_checks flag)) = true :=
  ⟨rfl, rfl, rfl⟩

/-- Claim C7: the conditions evaluated for a type are collected by walking the
ancestor chain before `base_class` in base-to-derived order and concatenating
each ancestor's registered predicates, qualified by the ancestor's name, with
no de-duplication: the result's length is the sum of the ancestors'
registered-condition counts. -/
theorem C7_conditions_base_to_derived {α : Type} (registry : String → List (String × α))
    (mro : List String) (base : String) (hbase : base ∈ mro) :
    get_conditions registry mro base
      = ((mro.take (mro.indexOf base)).reverse).flatMap
          (fun c => (registry c).map (fun kv => (c ++ "." ++ kv.1, kv.2)))
    ∧ (get_conditions registry mro base).length
      = (((mro.take (mro.indexOf base)).reverse).map (fun c => (registry c).length)).sum := by
  have h1 : get_conditions registry mro base
      = ((mro.take (mro.indexOf base)).reverse).flatMap
          (fun c => (registry c).map (fun kv => (c ++ "." ++ kv.1, kv.2))) := by
    show ((mro.take (mro.indexOf base)).reverse).foldl
        (fun res c => res ++ (registry c).map (fun kv => (c ++ "." ++ kv.1, kv.2))) [] = _
    rw [foldl_append_eq_flatMap]
    simp
  refine ⟨h1, ?_⟩
  rw [h1, List.length_flatMap]
  simp only [Function.comp_def, List.length_map]

/-- Witness for C7 at a concrete hierarchy where `m.B` and `m.D` both register
a condition named `n`. -/
theorem C7_conditions_base_to_derived_witness :
    get_conditions c7registry ["m.D", "m.B", "base"] "base"
      = ((["m.D", "m.B", "base"].take
            (["m.D", "m.B", "base"].indexOf "base")).reverse).flatMap
          (fun c => (c7registry c).map (fun kv => (c ++ "." ++ kv.1, kv.2)))
    ∧ (get_conditions c7registry ["m.D", "m.B", "base"] "base").length
      = (((["m.D", "m.B", "base"].take
            (["m.D", "m.B", "base"].indexOf "base")).reverse).map
          (fun c => (c7registry c).length)).sum :=
  C7_conditions_base_to_derived c7registry ["m.D", "m.B", "base"] "base" (by simp)

/-- Claim C9: during serialization the transient root envelope (`@type`,
`@model`, `@version`) is attached to the root's output and the root container
is removed again in the `finally` block, so it is gone from the in-memory
state once `rune_serialize` returns, with the rest of the state untouched. -/
theorem C9_root_envelope {ρ : Type} (validate : ρ → Except RuneErr Unit)
    (dump : ρ → List (String × String)) (typeName modelName version : String)
    (st : SerNode ρ) (hok : validate st.rest = .ok ()) :
    (rune_serialize validate dump typeName modelName version st).1
      = .ok (dictUnion
          (dictSet (dictSet (dictSet (st.rootMeta.getD []) "@type" typeName)
            "@model" modelName) "@version" version)
          (dump st.rest))
    ∧ (rune_serialize validate dump typeName modelName version st).2
      = { rootMeta := none, rest := st.rest } := by
  constructor <;> simp [rune_serialize, hok]

/-- Witness for C9 at a concrete state whose root container still holds a
stale envelope. -/
theorem C9_root_envelope_witness :
    (rune_serialize (fun (_ : Unit) => .ok ()) (fun _ => [("f", "1")])
        "m.Root" "m" "0.0.0" ⟨some [("@type", "old")], ()⟩).1
      = .ok (dictUnion
          (dictSet (dictSet (dictSet ((some [("@type", "old")]).getD []) "@type" "m.Root")
            "@model" "m") "@version" "0.0.0")
          [("f", "1")])
    ∧ (rune_serialize (fun (_ : Unit) => .ok ()) (fun _ => [("f", "1")])
        "m.Root" "m" "0.0.0" ⟨some [("@type", "old")], ()⟩).2
      = { rootMeta := none, rest := () } :=
  C9_root_envelope (fun _ => .ok ()) (fun _ => [("f", "1")]) "m.Root" "m" "0.0.0"
    ⟨some [("@type", "old")], ()⟩ rfl

/-- Claim C1 (code bug): on the spec's concrete round-trip document,
`rune_deserialize` itself raises
`TypeError: get_reference() missing 1 required positional argument: 'parent'`
from the reference-resolution pass, so
`deserialize(serialize(deserialize(doc))) == deserialize(doc)` cannot hold:
its right-hand side already fails for this dangling-reference-free
document. -/
theorem C1_roundtrip_pipeline_fails :
    rune_deserialize docRT =
      .error (.typeError
        "get_reference missing 1 required positional argument: parent") := rfl

/-- Claim C2 (code bug): a bare `@ref` envelope does deserialize to an
`UnresolvedReference` placeholder, and `model_validate` builds the expected
tree, but the resolution pass then raises `TypeError` for every
`UnresolvedReference` — `resolve_references` calls `obj.get_reference()`
without the required `parent` argument — instead of resolving it by registry
lookup or failing with a dangling-reference `KeyError`. -/
theorem C2_resolution_pass_raises_type_error :
    A_deserialize ["@key", "@ref"] (.obj [("@ref", .s "k1")])
      = .ok (.unresolved .internal "k1")
    ∧ Root_deserialize docRT = .ok treeRT
    ∧ Root_resolve_references treeRT =
        .error (.typeError
          "get_reference missing 1 required positional argument: parent") :=
  ⟨rfl, rfl, rfl⟩

/-- The general routing of `_get_object_map` along a non-empty chain: the
owner of the targeted registry is the first node strictly above no one — i.e.
the first among the node and its proper ancestors below the root — holding a
truthy local map of that kind, and the root otherwise. -/
theorem get_object_map_owner_eq (chain : List PyNode) (kt : KeyType) (hne : chain ≠ []) :
    get_object_map_owner chain kt =
      (chain.dropLast.find? (fun x => !(x.maps kt).isEmpty)).orElse
        (fun _ => chain.getLast?) := by
  induction chain with
  | nil => exact absurd rfl hne
  | cons n rest ih =>
      cases rest with
      | nil => simp [get_object_map_owner, Option.orElse]
      | cons p t =>
          by_cases hmap : n.maps kt = []
          · rw [show get_object_map_owner (n :: p :: t) kt
                = get_object_map_owner (p :: t) kt from by
                  simp [get_object_map_owner, hmap]]
            rw [ih (by simp)]
            have hfind : (n :: p :: t).dropLast.find? (fun x => !(x.maps kt).isEmpty)
                = ((p :: t).dropLast).find? (fun x => !(x.maps kt).isEmpty) := by
              rw [List.dropLast_cons₂]
              simp [List.find?, hmap]
            rw [hfind, List.getLast?_cons_cons]
          · have hpred : (!(n.maps kt).isEmpty) = true := by
              simp [List.isEmpty_iff, hmap]
            rw [show get_object_map_owner (n :: p :: t) kt = some n from by
                  simp [get_object_map_owner, hmap]]
            rw [List.dropLast_cons₂]
            simp [List.find?, hpred, Option.orElse]

/-- Claim C3, amended: for a node with no parent the own local registry is
used; for every kind, lookups and registrations bubble all the way to the
root whenever no node below the root holds a truthy local map of that kind
(the situation `_update_object_maps` maintains for non-Scoped kinds); and in
general — in particular for the Scoped kind — they target the nearest node
(including the one asked, excluding the root) holding a non-empty map of that
kind, falling through to the root otherwise, without ever consulting
`is_scope_instance`. -/
theorem C3_registry_visibility_amended (n : PyNode) (chain : List PyNode) (kt : KeyType) :
    get_object_map_owner [n] kt = some n
    ∧ ((∀ x ∈ (n :: chain).dropLast, x.maps kt = []) →
        get_object_map_owner (n :: chain) kt = (n :: chain).getLast?)
    ∧ get_object_map_owner (n :: chain) kt
        = ((n :: chain).dropLast.find? (fun x => !(x.maps kt).isEmpty)).orElse
            (fun _ => (n :: chain).getLast?) := by
  refine ⟨rfl, ?_, get_object_map_owner_eq _ _ (by simp)⟩
  intro hall
  rw [get_object_map_owner_eq _ _ (by simp)]
  have hfind : (n :: chain).dropLast.find? (fun x => !(x.maps kt).isEmpty) = none := by
    rw [List.find?_eq_none]
    intro x hx
    simp [List.isEmpty_iff, hall x hx]
  rw [hfind]
  rfl

/-- Witness for C3 (amended) on the chain `cNode → sNode → rNode` for the
Internal kind. -/
theorem C3_registry_visibility_amended_witness :
    get_object_map_owner [cNode] .internal = some cNode
    ∧ ((∀ x ∈ ([cNode, sNode, rNode] : List PyNode).dropLast,
          x.maps .internal = []) →
        get_object_map_owner [cNode, sNode, rNode] .internal
          = ([cNode, sNode, rNode] : List PyNode).getLast?)
    ∧ get_object_map_owner [cNode, sNode, rNode] .internal
        = (([cNode, sNode, rNode] : List PyNode).dropLast.find?
              (fun x => !(x.maps .internal).isEmpty)).orElse
            (fun _ => ([cNode, sNode, rNode] : List PyNode).getLast?) :=
  C3_registry_visibility_amended cNode [sNode, rNode] .internal

/-- Counterexample to claim C3 as stated: on the chain
`cNode → sNode → rNode`, where `sNode` is a scope boundary with an empty
Scoped registry, a Scoped lookup targets the root `rNode` (id 2), not the
nearest scope-boundary ancestor `sNode` (id 1) named by the claim. -/
theorem C3_scoped_counterexample :
    (claimed_scoped_target [cNode, sNode, rNode]).map PyNode.id = some 1
    ∧ (get_object_map_owner [cNode, sNode, rNode] .scoped).map PyNode.id = some 2
    ∧ (1 : Nat) ≠ 2 :=
  ⟨rfl, rfl, by decide⟩

/-! ## Lemmas about `_update_object_maps` -/

theorem merge_map_ok (locl nw l' : List (String × Nat))
    (h : merge_map locl nw = .ok l') : l' = locl ++ nw := by
  unfold merge_map at h
  split at h <;> simp_all

theorem merge_maps_into_ok (n : PyNode) (nw : ObjMaps) (n' : PyNode)
    (h : merge_maps_into n nw = .ok n') :
    n'.id = n.id ∧ n'.isScope = n.isScope ∧ ∀ kt, n'.maps kt = n.maps kt ++ nw kt := by
  unfold merge_maps_into at h
  split at h
  · rename_i i ex s hi hex hs
    injection h with h
    subst h
    refine ⟨rfl, rfl, ?_⟩
    intro kt
    cases kt
    · exact merge_map_ok _ _ _ hi
    · exact merge_map_ok _ _ _ hex
    · exact merge_map_ok _ _ _ hs
  all_goals simp at h

theorem merge_maps_into_error (n : PyNode) (nw : ObjMaps) (kt : KeyType)
    (hint : ((n.maps kt).map Prod.fst).inter ((nw kt).map Prod.fst) ≠ []) :
    ∃ e, merge_maps_into n nw = .error e := by
  have he : ∃ e, merge_map (n.maps kt) (nw kt) = .error e := by
    unfold merge_map
    rw [if_neg hint]
    exact ⟨_, rfl⟩
  obtain ⟨e, he⟩ := he
  unfold merge_maps_into
  split
  · rename_i i ex s hi hex hs
    cases kt
    · rw [hi] at he; exact absurd he (by simp)
    · rw [hex] at he; exact absurd he (by simp)
    · rw [hs] at he; exact absurd he (by simp)
  all_goals exact ⟨_, rfl⟩

theorem extract_scoped_map_ne (n : PyNode) (m : ObjMaps) (kt : KeyType)
    (hkt : kt ≠ .scoped) : (extract_scoped_map n m).2 kt = m kt := by
  unfold extract_scoped_map
  split
  · simp [hkt]
  · rfl

theorem extract_scoped_map_fst_nil (n : PyNode) (m : ObjMaps) (h : m .scoped = []) :
    (extract_scoped_map n m).1 = [] := by
  unfold extract_scoped_map
  split
  · simpa using h
  · rfl

theorem extract_scoped_map_snd_scoped_nil (n : PyNode) (m : ObjMaps)
    (h : m .scoped = []) : (extract_scoped_map n m).2 .scoped = [] := by
  unfold extract_scoped_map
  split
  · simp
  · simpa using h

theorem getLast?_cons_of_ne {α : Type} (a : α) (l : List α) (h : l ≠ []) :
    (a :: l).getLast? = l.getLast? := by
  cases l with
  | nil => exact absurd rfl h
  | cons b t => exact List.getLast?_cons_cons ..

theorem update_object_maps_length (chain : List PyNode) (m : ObjMaps)
    (res : List PyNode) (h : update_object_maps chain m = .ok res) :
    res.length = chain.length := by
  induction chain generalizing m res with
  | nil =>
      simp only [update_object_maps] at h
      injection h with h
      simp [← h]
  | cons n rest ih =>
      cases rest with
      | nil =>
          simp only [update_object_maps] at h
          split at h
          · injection h with h
            subst h
            rfl
          · exact absurd h (by simp)
      | cons p t =>
          simp only [update_object_maps] at h
          split at h
          · exact absurd h (by simp)
          · rename_i rest' hrec
            split at h
            · injection h with h
              subst h
              simp [ih _ _ hrec]
            · split at h
              · injection h with h
                subst h
                simp [ih _ _ hrec]
              · exact absurd h (by simp)

theorem update_object_maps_root (chain : List PyNode) (m : ObjMaps)
    (res : List PyNode) (kt : KeyType) (hkt : kt ≠ .scoped)
    (h : update_object_maps chain m = .ok res) :
    res.getLast?.map (fun r => r.maps kt)
      = chain.getLast?.map (fun r => r.maps kt ++ m kt) := by
  induction chain generalizing m res with
  | nil =>
      simp only [update_object_maps] at h
      injection h with h
      simp [← h]
  | cons n rest ih =>
      cases rest with
      | nil =>
          simp only [update_object_maps] at h
          split at h
          · rename_i n' hn'
            injection h with h
            subst h
            simp [(merge_maps_into_ok _ _ _ hn').2.2 kt]
          · exact absurd h (by simp)
      | cons p t =>
          simp only [update_object_maps] at h
          split at h
          · exact absurd h (by simp)
          · rename_i rest' hrec
            have hlen : rest'.length = (p :: t).length :=
              update_object_maps_length _ _ _ hrec
            have hne' : rest' ≠ [] := by
              intro hcon
              rw [hcon] at hlen
              simp at hlen
            have hm2 : (extract_scoped_map n m).2 kt = m kt :=
              extract_scoped_map_ne n m kt hkt
            split at h
            · injection h with h
              subst h
              rw [getLast?_cons_of_ne _ _ hne', getLast?_cons_of_ne _ _ (by simp),
                ih _ _ hrec, hm2]
            · split at h
              · rename_i n' hn'
                injection h with h
                subst h
                rw [getLast?_cons_of_ne _ _ hne', getLast?_cons_of_ne _ _ (by simp),
                  ih _ _ hrec, hm2]
              · exact absurd h (by simp)

theorem update_object_maps_scoped_nil (chain : List PyNode) (m : ObjMaps)
    (res : List PyNode) (hs : m .scoped = [])
    (h : update_object_maps chain m = .ok res) :
    res.map (fun x => x.maps .scoped) = chain.map (fun x => x.maps .scoped) := by
  induction chain generalizing m res with
  | nil =>
      simp only [update_object_maps] at h
      injection h with h
      simp [← h]
  | cons n rest ih =>
      cases rest with
      | nil =>
          simp only [update_object_maps] at h
          split at h
          · rename_i n' hn'
            injection h with h
            subst h
            simp [(merge_maps_into_ok _ _ _ hn').2.2 KeyType.scoped, hs]
          · exact absurd h (by simp)
      | cons p t =>
          simp only [update_object_maps] at h
          split at h
          · exact absurd h (by simp)
          · rename_i rest' hrec
            have hfst := extract_scoped_map_fst_nil n m hs
            have hsnd := extract_scoped_map_snd_scoped_nil n m hs
            split at h
            · injection h with h
              subst h
              simp [ih _ _ hsnd hrec]
            · rename_i hif
              exact absurd hfst hif

theorem update_object_maps_head_scoped (c : PyNode) (anc : List PyNode)
    (m : ObjMaps) (res : List PyNode) (hanc : anc ≠ []) (hscope : c.isScope = true)
    (h : update_object_maps (c :: anc) m = .ok res) :
    res.head?.map (fun x => x.maps .scoped) = some (c.maps .scoped ++ m .scoped)
    ∧ res.tail.map (fun x => x.maps .scoped) = anc.map (fun x => x.maps .scoped) := by
  cases anc with
  | nil => exact absurd rfl hanc
  | cons p t =>
      have hfst : (extract_scoped_map c m).1 = m .scoped := by
        simp [extract_scoped_map, hscope]
      have hsnd : (extract_scoped_map c m).2 .scoped = [] := by
        simp [extract_scoped_map, hscope]
      simp only [update_object_maps] at h
      split at h
      · exact absurd h (by simp)
      · rename_i rest' hrec
        have htail := update_object_maps_scoped_nil _ _ _ hsnd hrec
        split at h
        · rename_i hif
          injection h with h
          subst h
          refine ⟨?_, by simpa using htail⟩
          rw [hfst] at hif
          simp [hif]
        · rename_i hif
          split at h
          · rename_i n' hn'
            injection h with h
            subst h
            refine ⟨?_, by simpa using htail⟩
            have := (merge_maps_into_ok _ _ _ hn').2.2 KeyType.scoped
            simp only [if_pos rfl] at this
            simp [this, hfst]
          · exact absurd h (by simp)

theorem update_object_maps_collision (chain : List PyNode) (m : ObjMaps)
    (kt : KeyType) (hkt : kt ≠ .scoped) (k : String) (root : PyNode)
    (hroot : chain.getLast? = some root)
    (hk1 : k ∈ (m kt).map Prod.fst)
    (hk2 : k ∈ (root.maps kt).map Prod.fst) :
    ∃ e, update_object_maps chain m = .error e := by
  induction chain generalizing m with
  | nil => simp at hroot
  | cons n rest ih =>
      cases rest with
      | nil =>
          have hn : n = root := by simpa using hroot
          subst hn
          have hint : ((n.maps kt).map Prod.fst).inter ((m kt).map Prod.fst) ≠ [] :=
            List.ne_nil_of_mem (List.mem_inter_iff.mpr ⟨hk2, hk1⟩)
          obtain ⟨e, he⟩ := merge_maps_into_error n m kt hint
          exact ⟨e, by simp [update_object_maps, he]⟩
      | cons p t =>
          have hroot' : (p :: t).getLast? = some root := by
            rw [← getLast?_cons_of_ne n (p :: t) (by simp)]
            exact hroot
          have hm2 : (extract_scoped_map n m).2 kt = m kt :=
            extract_scoped_map_ne n m kt hkt
          obtain ⟨e, he⟩ := ih (extract_scoped_map n m).2 hroot' (by rw [hm2]; exact hk1)
          exact ⟨e, by simp [update_object_maps, he]⟩

/-- Claim C4: attaching a freshly built subtree with standalone registries
merges each non-Scoped map into the root registry of the ancestor chain;
Scoped maps are retained locally on the subtree root when it is itself a
scope boundary, leaving every ancestor's Scoped registry untouched; and a
(kind, key) collision with the root registry discovered during the merge
raises the duplicate-key error. -/
theorem C4_attach_merge (child : PyNode) (ancestors : List PyNode)
    (hanc : ancestors ≠ []) :
    (∀ res, set_rune_parent child ancestors = .ok res →
       (∀ kt, kt ≠ KeyType.scoped →
          res.getLast?.map (fun r => r.maps kt)
            = ancestors.getLast?.map (fun r => r.maps kt ++ child.maps kt))
       ∧ (child.isScope = true →
            res.head?.map (fun x => x.maps .scoped) = some (child.maps .scoped)
            ∧ res.tail.map (fun x => x.maps .scoped)
                = ancestors.map (fun x => x.maps .scoped)))
    ∧ (∀ kt k root, kt ≠ KeyType.scoped → ancestors.getLast? = some root →
         k ∈ (child.maps kt).map Prod.fst →
         k ∈ (root.maps kt).map Prod.fst →
         ∃ e, set_rune_parent child ancestors = .error e) := by
  constructor
  · intro res hok
    unfold set_rune_parent at hok
    constructor
    · intro kt hkt
      have hr := update_object_maps_root _ _ _ kt hkt hok
      rw [getLast?_cons_of_ne _ _ hanc] at hr
      exact hr
    · intro hscope
      have hsc : ({ child with maps := emptyMaps } : PyNode).isScope = true := hscope
      have hh := update_object_maps_head_scoped _ _ _ _ hanc hsc hok
      refine ⟨?_, hh.2⟩
      have := hh.1
      simpa [emptyMaps] using this
  · intro kt k root hkt hroot hk1 hk2
    unfold set_rune_parent
    exact update_object_maps_collision _ _ kt hkt k root
      (by rw [getLast?_cons_of_ne _ _ hanc]; exact hroot) hk1 hk2

/-- Witness for C4: a scope-boundary subtree root with standalone internal and
scoped registrations attached under a one-node ancestor chain. -/
theorem C4_attach_merge_witness :
    (∀ res, set_rune_parent c4child [c4root] = .ok res →
       (∀ kt, kt ≠ KeyType.scoped →
          res.getLast?.map (fun r => r.maps kt)
            = ([c4root] : List PyNode).getLast?.map
                (fun r => r.maps kt ++ c4child.maps kt))
       ∧ (c4child.isScope = true →
            res.head?.map (fun x => x.maps .scoped) = some (c4child.maps .scoped)
            ∧ res.tail.map (fun x => x.maps .scoped)
                = ([c4root] : List PyNode).map (fun x => x.maps .scoped)))
    ∧ (∀ kt k root, kt ≠ KeyType.scoped →
         ([c4root] : List PyNode).getLast? = some root →
         k ∈ (c4child.maps kt).map Prod.fst →
         k ∈ (root.maps kt).map Prod.fst →
         ∃ e, set_rune_parent c4child [c4root] = .error e) :=
  C4_attach_merge c4child [c4root] (by simp)

/-! ## `set_external_key`, `init_meta`, `__setattr__` theorems -/

theorem set_meta_single_ok {α : Type} (m : MetaStore α) (tag : String) (v : Option α)
    (h : py_to_ser_key tag ∈ metaKeys m) :
    set_meta m true [(tag, v)] = .ok (dictSet m (py_to_ser_key tag) v) := by
  simp [set_meta, check_props_allowed, h]

theorem set_meta_single_error {α : Type} (m : MetaStore α) (tag : String) (v : Option α)
    (h : py_to_ser_key tag ∉ metaKeys m) :
    set_meta m true [(tag, v)]
      = .error (.valueError "Not allowed metadata provided") := by
  simp [set_meta, check_props_allowed, h]

/-- Claim C5, amended: an existing truthy key of the kind that differs raises
the key-conflict `ValueError`; an identical existing key is a no-op; otherwise
the key is stored and registered — provided the key tag is one of the node's
initialized metadata slots, else `set_meta`'s allow-list check raises and
nothing is stored or registered.  (Registration itself is a plain dict
assignment and cannot fail, so the rollback branch is unreachable.) -/
theorem C5_set_external_key_amended (n : KeyNode) (key : String) (kt : KeyType) :
    (∀ s, get_meta n.meta kt.key_tag = some s → s ≠ "" → s ≠ key →
       ∃ msg, set_external_key n key kt = .error (.valueError msg))
    ∧ (get_meta n.meta kt.key_tag = some key → set_external_key n key kt = .ok n)
    ∧ (truthyS (get_meta n.meta kt.key_tag) = false →
       get_meta n.meta kt.key_tag ≠ some key →
       py_to_ser_key kt.key_tag ∈ metaKeys n.meta →
       set_external_key n key kt
         = .ok { n with
                 meta := dictSet n.meta (py_to_ser_key kt.key_tag) (some key),
                 reg := fun kt' =>
                   if kt' = kt then dictSet (n.reg kt') key n.id else n.reg kt' })
    ∧ (truthyS (get_meta n.meta kt.key_tag) = false →
       get_meta n.meta kt.key_tag ≠ some key →
       py_to_ser_key kt.key_tag ∉ metaKeys n.meta →
       set_external_key n key kt
         = .error (.valueError "Not allowed metadata provided")) := by
  refine ⟨?_, ?_, ?_, ?_⟩
  · intro s hs hne hnek
    simp only [set_external_key]
    rw [hs]
    rw [if_pos ⟨by simp [truthyS, hne], by simpa using hnek⟩]
    exact ⟨_, rfl⟩
  · intro hkey
    simp only [set_external_key]
    rw [hkey]
    rw [if_neg (fun hc => hc.2 rfl), if_pos rfl]
  · intro hf hne hmem
    simp only [set_external_key]
    rw [if_neg (fun hc => by rw [hc.1] at hf; simp at hf),
      if_neg hne, set_meta_single_ok _ _ _ hmem]
    rfl
  · intro hf hne hmem
    simp only [set_external_key]
    rw [if_neg (fun hc => by rw [hc.1] at hf; simp at hf),
      if_neg hne, set_meta_single_error _ _ _ hmem]

/-- Witness for C5 (amended) on a node whose external key slot is seeded as
absent: storing succeeds and registers the key. -/
theorem C5_set_external_key_amended_witness :
    (∀ s, get_meta keyNodeW.meta KeyType.external.key_tag = some s → s ≠ "" →
       s ≠ "X" → ∃ msg, set_external_key keyNodeW "X" .external
         = .error (.valueError msg))
    ∧ (get_meta keyNodeW.meta KeyType.external.key_tag = some "X" →
       set_external_key keyNodeW "X" .external = .ok keyNodeW)
    ∧ (truthyS (get_meta keyNodeW.meta KeyType.external.key_tag) = false →
       get_meta keyNodeW.meta KeyType.external.key_tag ≠ some "X" →
       py_to_ser_key KeyType.external.key_tag ∈ metaKeys keyNodeW.meta →
       set_external_key keyNodeW "X" .external
         = .ok { keyNodeW with
                 meta := dictSet keyNodeW.meta
                   (py_to_ser_key KeyType.external.key_tag) (some "X"),
                 reg := fun kt' =>
                   if kt' = KeyType.external then
                     dictSet (keyNodeW.reg kt') "X" keyNodeW.id
                   else keyNodeW.reg kt' })
    ∧ (truthyS (get_meta keyNodeW.meta KeyType.external.key_tag) = false →
       get_meta keyNodeW.meta KeyType.external.key_tag ≠ some "X" →
       py_to_ser_key KeyType.external.key_tag ∉ metaKeys keyNodeW.meta →
       set_external_key keyNodeW "X" .external
         = .error (.valueError "Not allowed metadata provided")) :=
  C5_set_external_key_amended keyNodeW "X" .external

/-- Counterexample to claim C5 as stated: on a node with no existing external
key (so the claim's "otherwise stores and registers" branch applies), the
call fails with `MetadataNotAllowed` because the key tag is not an
initialized metadata slot, and nothing is stored. -/
theorem C5_missing_slot_counterexample :
    get_meta keyNode0.meta KeyType.external.key_tag = none
    ∧ set_external_key keyNode0 "X" .external
        = .error (.valueError "Not allowed metadata provided") :=
  ⟨rfl, rfl⟩

/-- Claim C8: `init_meta` fails when the store already has tags outside the
new allow-list; otherwise it seeds every missing allowed tag as absent,
changes no existing tag's value, and is idempotent. -/
theorem C8_init_meta_idempotent (m : MetaStore String) (allowed : List String) :
    ((∀ k ∈ metaKeys m, k ∈ allowed) →
       ∃ m', init_meta m allowed = .ok m'
         ∧ (∀ k v, alookup m k = some v → alookup m' k = some v)
         ∧ (∀ k ∈ allowed, k ∉ metaKeys m → alookup m' k = some none)
         ∧ init_meta m' allowed = .ok m')
    ∧ ((∃ k ∈ metaKeys m, k ∉ allowed) → ∃ e, init_meta m allowed = .error e) := by
  have hkeys : metaKeys (m ++ (allowed.filter (fun k => k ∉ metaKeys m)).map
      (fun k => (k, (none : Option String))))
      = metaKeys m ++ allowed.filter (fun k => k ∉ metaKeys m) := by
    simp only [metaKeys, List.map_append, List.map_map]
    congr 1
    exact List.map_id _
  constructor
  · intro hsub
    refine ⟨m ++ (allowed.filter (fun k => k ∉ metaKeys m)).map
        (fun k => (k, (none : Option String))), ?_, ?_, ?_, ?_⟩
    · unfold init_meta
      rw [dif_pos hsub]
    · intro k v hv
      exact alookup_append_left _ _ _ _ hv
    · intro k hk hnk
      rw [alookup_append_right _ _ _
        (alookup_eq_none_of_not_mem _ _ (by simpa [metaKeys] using hnk))]
      apply alookup_map_const_none
      simp only [List.mem_filter]
      exact ⟨hk, by simpa using hnk⟩
    · have hsub' : ∀ k ∈ metaKeys (m ++ (allowed.filter
          (fun k => k ∉ metaKeys m)).map (fun k => (k, (none : Option String)))),
          k ∈ allowed := by
        rw [hkeys]
        intro k hk
        rcases List.mem_append.mp hk with h1 | h2
        · exact hsub k h1
        · exact (List.mem_filter.mp h2).1
      have hfilter : allowed.filter (fun k => k ∉ metaKeys (m ++ (allowed.filter
          (fun k => k ∉ metaKeys m)).map (fun k => (k, (none : Option String))))) = [] := by
        rw [List.filter_eq_nil_iff]
        intro k hk
        simp only [decide_eq_true_eq, Decidable.not_not]
        rw [hkeys]
        rw [List.mem_append]
        by_cases hmem : k ∈ metaKeys m
        · exact Or.inl hmem
        · exact Or.inr (List.mem_filter.mpr ⟨hk, by simpa using hmem⟩)
      unfold init_meta
      rw [dif_pos hsub', hfilter]
      simp
  · rintro ⟨k, hk, hnk⟩
    have hno : ¬ ∀ x ∈ metaKeys m, x ∈ allowed := fun hall => hnk (hall k hk)
    refine ⟨.valueError "Allowed meta differs from the currently existing meta slots", ?_⟩
    unfold init_meta
    rw [dif_neg hno]

/-- Witness for C8 at a store holding one allowed tag and an allow-list with
one further tag to seed. -/
theorem C8_init_meta_idempotent_witness :
    ((∀ k ∈ metaKeys [("@key", some "v")], k ∈ ["@key", "@scheme"]) →
       ∃ m', init_meta [("@key", some "v")] ["@key", "@scheme"] = .ok m'
         ∧ (∀ k v, alookup [("@key", some "v")] k = some v → alookup m' k = some v)
         ∧ (∀ k ∈ ["@key", "@scheme"], k ∉ metaKeys [("@key", some "v")] →
             alookup m' k = some none)
         ∧ init_meta m' ["@key", "@scheme"] = .ok m')
    ∧ ((∃ k ∈ metaKeys [("@key", some "v")], k ∉ ["@key", "@scheme"]) →
        ∃ e, init_meta [("@key", some "v")] ["@key", "@scheme"] = .error e) :=
  C8_init_meta_idempotent [("@key", some "v")] ["@key", "@scheme"]

theorem setattr_popref_refs (st : CObj) (nm : String) :
    alookup (setattr_popref st nm).refsC nm = none := by
  unfold setattr_popref
  split
  · exact alookup_dictPop_self ..
  · rename_i hnone
    simpa using hnone

/-- Claim C10: after a successful `__setattr__`, a plain (non-`Reference`)
assignment leaves the field absent from `__rune_references` and
`_resolve_refs` then dumps the stored value inline, while a `Reference`
assignment (delegated to `bind_property_to`) records the field's binding in
`__rune_references`; so the assigned field is recorded there exactly when a
`Reference` was assigned. -/
theorem C10_setattr_refs (subRel : List (String × String)) (st : CObj) (nm : String)
    (v : AssignVal) (st' : CObj)
    (h : rune_setattr subRel st nm v = .ok st') :
    (∀ p, v = .plain p → alookup st'.refsC nm = none
        ∧ ∃ q, alookup st'.fields nm = some q
            ∧ alookup (resolve_refs st') nm = some (.inline q))
    ∧ (∀ r, v = .ref r → alookup st'.refsC nm = some (r.target_key, r.key_type))
    ∧ ((alookup st'.refsC nm).isSome ↔ ∃ r, v = .ref r) := by
  cases v with
  | plain p =>
      have hstate : ∃ value, st' = { setattr_popref st nm with
          fields := dictSet (setattr_popref st nm).fields nm value } := by
        simp only [rune_setattr] at h
        split at h
        · simp at h
        · rename_i cur hcur
          split at h
          · simp at h
          · rename_i value hval
            injection h with h
            exact ⟨value, h.symm⟩
      obtain ⟨value, hst'⟩ := hstate
      have hrefs : alookup st'.refsC nm = none := by
        rw [hst']
        exact setattr_popref_refs st nm
      have hfield : alookup st'.fields nm = some value := by
        rw [hst']
        exact alookup_dictSet_self ..
      refine ⟨?_, ?_, ?_⟩
      · intro p' _
        refine ⟨hrefs, value, hfield, ?_⟩
        unfold resolve_refs
        rw [alookup_foldl_dictSet _ _ _ _ (alookup_none_forall _ _ hrefs),
          alookup_map_snd, hfield]
        rfl
      · intro r hr
        simp at hr
      · rw [hrefs]
        simp
  | ref r =>
      have hrefs : alookup st'.refsC nm = some (r.target_key, r.key_type) := by
        simp only [rune_setattr] at h
        unfold bind_property_to at h
        repeat' split at h
        all_goals
          first
          | (injection h with h
             subst h
             exact alookup_dictSet_self ..)
          | simp at h
      refine ⟨?_, ?_, ?_⟩
      · intro p hp
        simp at hp
      · intro r' hr'
        injection hr' with hr'
        subst hr'
        exact hrefs
      · rw [hrefs]
        simp

/-- Witness for C10: binding field `x` of a concrete node to a reference
records the binding in `__rune_references`. -/
theorem C10_setattr_refs_witness :
    (∀ p, (AssignVal.ref ⟨"k", .internal, c10target⟩) = .plain p →
        alookup c10objBound.refsC "x" = none
        ∧ ∃ q, alookup c10objBound.fields "x" = some q
            ∧ alookup (resolve_refs c10objBound) "x" = some (.inline q))
    ∧ (∀ r, (AssignVal.ref ⟨"k", .internal, c10target⟩) = .ref r →
        alookup c10objBound.refsC "x" = some (r.target_key, r.key_type))
    ∧ ((alookup c10objBound.refsC "x").isSome
        ↔ ∃ r, (AssignVal.ref ⟨"k", .internal, c10target⟩) = .ref r) :=
  C10_setattr_refs [] c10obj "x" (.ref ⟨"k", .internal, c10target⟩) c10objBound rfl

end RuneSpec
